import Mathlib

/-!
Shallow embedding of lib/librte_vhost/trans_af_unix.c (AF_UNIX transport of
the vhost-user library).  Each C function is translated into a Lean function
over an explicit environment that supplies the results of the system calls
and external collaborators (malloc, recvmsg, sendmsg, connect, fcntl,
vhost_new_device, the notify_ops callbacks, fdset operations).  The
observable behaviour of a call is its return value together with a trace of
effects (descriptor closes, frees, device creation and destruction, list
insertions and removals, dispatcher registrations), so that resource
accounting and ordering claims can be stated and proved over the traces.
-/

namespace TransAfUnix

/-- Linux constant SOL_SOCKET. -/
def SOL_SOCKET : Nat := 1

/-- Linux constant SCM_RIGHTS. -/
def SCM_RIGHTS : Nat := 1

/-- Linux errno EINTR. -/
def EINTR : Nat := 4

/-- Linux errno EINVAL. -/
def EINVAL : Nat := 22

/-- Linux errno EISCONN. -/
def EISCONN : Nat := 106

/-- Linux constant MSG_NOSIGNAL. -/
def MSG_NOSIGNAL : Nat := 16384

/-- Linux constant O_NONBLOCK. -/
def O_NONBLOCK : Nat := 2048

/-- Alignment of control-message lengths, CMSG_ALIGN on a 64-bit platform. -/
def cmsgAlign (n : Nat) : Nat := ((n + 7) / 8) * 8

/-- Size of struct cmsghdr on a 64-bit platform. -/
def sizeofCmsghdr : Nat := 16

/-- Size of a C int. -/
def sizeofInt : Nat := 4

/-- The CMSG_SPACE macro. -/
def CMSG_SPACE (n : Nat) : Nat := cmsgAlign sizeofCmsghdr + cmsgAlign n

/-- The CMSG_LEN macro. -/
def CMSG_LEN (n : Nat) : Nat := cmsgAlign sizeofCmsghdr + n

/-- Descriptor capacity of the control buffer read_fd_message declares,
char control[CMSG_SPACE(max_fds * sizeof(int))]: the number of descriptors
a single SCM_RIGHTS record can carry into that buffer without the kernel
setting MSG_CTRUNC.  Because CMSG_ALIGN rounds the payload up to 8 bytes,
this is max_fds for even max_fds and max_fds + 1 for odd max_fds. -/
def cmsgCapacity (max_fds : Nat) : Nat :=
  (CMSG_SPACE (max_fds * sizeofInt) - CMSG_LEN 0) / sizeofInt

/-- Observable effects of the transport layer: system calls that change
resource state, collaborator invocations, and lock operations, in the order
the C code performs them. -/
inductive Effect where
  | closeFd (fd : Int)
  | mallocConnFail
  | newDevice (vid : Int)
  | setIfname (vid : Int)
  | setBuiltinVirtioNet (vid : Int) (b : Bool)
  | attachVdpa (vid : Int) (dev : Int)
  | enableDequeueZeroCopy (vid : Int)
  | newConnectionCb (vid : Int) (ret : Int)
  | destroyConnectionCb (vid : Int)
  | fdsetAdd (fd : Int) (ok : Bool)
  | destroyDevice (vid : Int)
  | lockConnMutex
  | insertConn (fd : Int) (vid : Int)
  | unlockConnMutex
  | fdsetPipeNotify
  | msgHandler (vid : Int) (fd : Int) (ret : Int)
  | setRemoveFlag
  | destroyDeviceNotify (vid : Int)
  | removeConn (fd : Int)
  | freeConn
  | createUnixSocket
  | startClient
  | connectCall (fd : Int)
  | clearNonblock (fd : Int)
  | addConnection (fd : Int)
  | parkReconn (fd : Int)
  | lockReconnMutex
  | unlockReconnMutex
  | removeReconn (fd : Int)
  | freeReconn (fd : Int)
  | fdsetTryDel (fd : Int) (ok : Bool)
  | fdsetDel (fd : Int)
  | unlinkPath
  | removeReconnectEntry
  | destroyConnMutex
deriving DecidableEq

/-- The list a occurs as a contiguous run inside the list b. -/
def contiguousIn (a b : List Effect) : Prop := ∃ s t, s ++ a ++ t = b

/-- One control message delivered by recvmsg: level, type and the file
descriptors carried in its payload (meaningful for SCM_RIGHTS). -/
structure Cmsg where
  cmsg_level : Nat
  cmsg_type : Nat
  payloadFds : List Int
deriving DecidableEq

/-- Environment of one read_fd_message call: result of the recvmsg system
call, the two kernel truncation flags, and the control messages that the
kernel placed in the control buffer. -/
structure RecvEnv where
  recv_ret : Int
  msg_trunc : Bool
  msg_ctrunc : Bool
  cmsgs : List Cmsg
deriving DecidableEq

/-- Result of read_fd_message: the C return value, the caller's fds array
after the call, and the value stored through the fd_num out-parameter. -/
structure RecvResult where
  ret : Int
  fds : List Int
  fd_num : Nat
deriving DecidableEq

/-- The cmsg scan loop of read_fd_message: the first control message with
level SOL_SOCKET and type SCM_RIGHTS. -/
def scmRights? (cmsgs : List Cmsg) : Option Cmsg :=
  cmsgs.find? fun c => c.cmsg_level == SOL_SOCKET && c.cmsg_type == SCM_RIGHTS

/-- Payload of the first SCM_RIGHTS control message, empty when none. -/
def scmPayload (cmsgs : List Cmsg) : List Int :=
  match scmRights? cmsgs with
  | some c => c.payloadFds
  | none => []

/-- The write pattern of read_fd_message on the caller's fds array: memcpy
of the received descriptors followed by the clear-out loop that stores -1
from got_fds up to max_fds. -/
def fillAbsent (old new : List Int) (max_fds : Nat) : List Int :=
  new ++ List.replicate (max_fds - new.length) (-1) ++ old.drop (Nat.max new.length max_fds)

/-- Embedding of read_fd_message.  The fds argument is the caller's array
as it stands before the call (its stale contents), max_fds its capacity. -/
def read_fd_message (env : RecvEnv) (fds : List Int) (max_fds : Nat) : RecvResult :=
  if env.recv_ret ≤ 0 then
    { ret := env.recv_ret, fds := fds, fd_num := 0 }
  else if env.msg_trunc = true ∨ env.msg_ctrunc = true then
    { ret := -1, fds := fds, fd_num := 0 }
  else
    match scmRights? env.cmsgs with
    | some c =>
        { ret := env.recv_ret
          fds := fillAbsent fds c.payloadFds max_fds
          fd_num := c.payloadFds.length }
    | none =>
        { ret := env.recv_ret, fds := fillAbsent fds [] max_fds, fd_num := 0 }

/-- Environment of one send_fd_message call: the number of leading sendmsg
attempts that fail with EINTR, then the result and errno of the first
attempt that does not fail with EINTR. -/
structure SendEnv where
  eintr_failures : Nat
  final_ret : Int
  final_errno : Nat
deriving DecidableEq

/-- Result of send_fd_message: the C return value, the errno left behind,
the number of sendmsg invocations performed, and the flags argument passed
to each of them. -/
structure SendResult where
  ret : Int
  errno : Nat
  sendmsg_calls : Nat
  sendmsg_flags : List Nat
deriving DecidableEq

/-- The do/while retry loop of send_fd_message, recursing on the number of
remaining EINTR failures; every attempt passes MSG_NOSIGNAL. -/
def sendmsgRetry (env : SendEnv) : Nat → SendResult
  | 0 =>
      { ret := env.final_ret, errno := env.final_errno
        sendmsg_calls := 1, sendmsg_flags := [MSG_NOSIGNAL] }
  | n + 1 =>
      if (-1 : Int) < 0 ∧ EINTR = EINTR then
        let r := sendmsgRetry env n
        { ret := r.ret, errno := r.errno
          sendmsg_calls := r.sendmsg_calls + 1
          sendmsg_flags := MSG_NOSIGNAL :: r.sendmsg_flags }
      else
        { ret := -1, errno := EINTR
          sendmsg_calls := 1, sendmsg_flags := [MSG_NOSIGNAL] }

/-- Embedding of send_fd_message.  hasFds says whether the fds pointer is
non-null; fd_num is the declared descriptor count.  When descriptors are
attached the code checks CMSG_FIRSTHDR for NULL, which in the embedding is
the test that the control buffer is at least one cmsghdr large. -/
def send_fd_message (env : SendEnv) (hasFds : Bool) (fd_num : Nat) : SendResult :=
  if hasFds = true ∧ 0 < fd_num then
    if CMSG_SPACE (fd_num * sizeofInt) < sizeofCmsghdr then
      { ret := -1, errno := EINVAL, sendmsg_calls := 0, sendmsg_flags := [] }
    else
      sendmsgRetry env env.eintr_failures
  else
    sendmsgRetry env env.eintr_failures

/-- The fields of struct vhost_user_socket that the transport reads.  The
two notify fields record whether the owner supplied the optional
new_connection and destroy_connection callbacks. -/
structure VhostUserSocket where
  is_server : Bool
  reconnect : Bool
  use_builtin_virtio_net : Bool
  dequeue_zero_copy : Bool
  vdpa_dev_id : Int
  notify_new_connection : Bool
  notify_destroy_connection : Bool
deriving DecidableEq

/-- Environment of one vhost_user_add_connection call: whether malloc of
the connection record succeeds, the vid returned by vhost_new_device (-1 on
failure), the result of the owner's new_connection callback (consulted only
when that callback is present), and the result of fdset_add. -/
structure AddConnEnv where
  malloc_ok : Bool
  new_device_vid : Int
  new_connection_ret : Int
  fdset_add_ret : Int
deriving DecidableEq

/-- The device-configuration effects of vhost_user_add_connection once the
device exists: vhost_set_ifname, vhost_set_builtin_virtio_net,
vhost_attach_vdpa_device, and conditionally
vhost_enable_dequeue_zero_copy. -/
def addConnCfg (vs : VhostUserSocket) (vid : Int) : List Effect :=
  [Effect.newDevice vid, Effect.setIfname vid,
   Effect.setBuiltinVirtioNet vid vs.use_builtin_virtio_net,
   Effect.attachVdpa vid vs.vdpa_dev_id] ++
  (if vs.dequeue_zero_copy = true then [Effect.enableDequeueZeroCopy vid] else [])

/-- Embedding of vhost_user_add_connection, as the trace of effects the
call performs.  The vsocket argument is an Option to model the NULL check
at the top of the function. -/
def vhost_user_add_connection (fd : Int) (vsocket : Option VhostUserSocket)
    (env : AddConnEnv) : List Effect :=
  match vsocket with
  | none => []
  | some vs =>
    if env.malloc_ok = false then
      [Effect.mallocConnFail, Effect.closeFd fd]
    else
      let vid := env.new_device_vid
      if vid = -1 then
        [Effect.newDevice vid, Effect.freeConn, Effect.closeFd fd]
      else
        let cfg : List Effect := addConnCfg vs vid
        if vs.notify_new_connection = true ∧ env.new_connection_ret < 0 then
          cfg ++ [Effect.newConnectionCb vid env.new_connection_ret,
                  Effect.destroyDevice vid, Effect.freeConn, Effect.closeFd fd]
        else
          let cbTr : List Effect :=
            if vs.notify_new_connection = true then
              [Effect.newConnectionCb vid env.new_connection_ret]
            else []
          if env.fdset_add_ret < 0 then
            cfg ++ cbTr ++ [Effect.fdsetAdd fd false] ++
            (if vs.notify_destroy_connection = true then [Effect.destroyConnectionCb vid] else []) ++
            [Effect.destroyDevice vid, Effect.freeConn, Effect.closeFd fd]
          else
            cfg ++ cbTr ++
            [Effect.fdsetAdd fd true, Effect.lockConnMutex,
             Effect.insertConn fd vid, Effect.unlockConnMutex,
             Effect.fdsetPipeNotify]

/-- The fields of a struct vhost_user_connection that vhost_user_read_cb
dereferences: the vid and the owning socket. -/
structure ConnDat where
  vid : Int
  vsocket : VhostUserSocket
deriving DecidableEq

/-- Environment of one vhost_user_read_cb call: the result of
vhost_user_msg_handler and whether get_device finds the device live. -/
structure ReadCbEnv where
  msg_handler_ret : Int
  dev_present : Bool
deriving DecidableEq

/-- Result of vhost_user_read_cb: its effect trace and the value stored
through the remove out-parameter for the dispatcher. -/
structure ReadCbResult where
  trace : List Effect
  remove : Bool
deriving DecidableEq

/-- Embedding of vhost_user_read_cb. -/
def vhost_user_read_cb (connfd : Int) (conn : ConnDat) (env : ReadCbEnv) : ReadCbResult :=
  if env.msg_handler_ret < 0 then
    { remove := true
      trace :=
        [Effect.msgHandler conn.vid connfd env.msg_handler_ret,
         Effect.closeFd connfd, Effect.setRemoveFlag] ++
        (if env.dev_present = true then [Effect.destroyDeviceNotify conn.vid] else []) ++
        (if conn.vsocket.notify_destroy_connection = true then [Effect.destroyConnectionCb conn.vid] else []) ++
        [Effect.destroyDevice conn.vid, Effect.lockConnMutex,
         Effect.removeConn connfd, Effect.unlockConnMutex, Effect.freeConn] ++
        (if conn.vsocket.reconnect = true then [Effect.createUnixSocket, Effect.startClient] else []) }
  else
    { remove := false
      trace := [Effect.msgHandler conn.vid connfd env.msg_handler_ret] }

/-- Environment of one vhost_user_connect_nonblock call: the connect result
and errno, the flags word returned by fcntl F_GETFL (negative on failure),
and whether fcntl F_SETFL succeeds. -/
structure ConnectEnv where
  connect_ret : Int
  connect_errno : Nat
  fcntl_getfl : Int
  fcntl_setfl_ok : Bool
deriving DecidableEq

/-- Result of vhost_user_connect_nonblock: its return value (0, -1 or -2)
and its effect trace. -/
structure ConnectNBResult where
  ret : Int
  trace : List Effect
deriving DecidableEq

/-- Embedding of vhost_user_connect_nonblock. -/
def vhost_user_connect_nonblock (fd : Int) (env : ConnectEnv) : ConnectNBResult :=
  if env.connect_ret < 0 ∧ env.connect_errno ≠ EISCONN then
    { ret := -1, trace := [Effect.connectCall fd] }
  else if env.fcntl_getfl < 0 then
    { ret := -2, trace := [Effect.connectCall fd] }
  else if Nat.land env.fcntl_getfl.toNat O_NONBLOCK ≠ 0 then
    if env.fcntl_setfl_ok = false then
      { ret := -2, trace := [Effect.connectCall fd] }
    else
      { ret := 0, trace := [Effect.connectCall fd, Effect.clearNonblock fd] }
  else
    { ret := 0, trace := [Effect.connectCall fd] }

/-- Environment of one vhost_user_start_client call: the connect
environment and whether malloc of the reconnect record succeeds. -/
structure StartClientEnv where
  cenv : ConnectEnv
  reconn_malloc_ok : Bool
deriving DecidableEq

/-- Result of vhost_user_start_client: return value and effect trace. -/
structure StartClientResult where
  ret : Int
  trace : List Effect
deriving DecidableEq

/-- Embedding of vhost_user_start_client.  Routing the descriptor to
vhost_user_add_connection is recorded as the addConnection effect; parking
a reconnect entry is recorded as parkReconn under the registry lock. -/
def vhost_user_start_client (vs : VhostUserSocket) (fd : Int)
    (env : StartClientEnv) : StartClientResult :=
  let c := vhost_user_connect_nonblock fd env.cenv
  if c.ret = 0 then
    { ret := 0, trace := c.trace ++ [Effect.addConnection fd] }
  else if c.ret = -2 ∨ vs.reconnect = false then
    { ret := -1, trace := c.trace ++ [Effect.closeFd fd] }
  else if env.reconn_malloc_ok = false then
    { ret := -1, trace := c.trace ++ [Effect.closeFd fd] }
  else
    { ret := 0
      trace := c.trace ++
        [Effect.lockReconnMutex, Effect.parkReconn fd, Effect.unlockReconnMutex] }

/-- A reconnect entry as seen by the reconnect thread sweep. -/
structure ReconnEntry where
  fd : Int
deriving DecidableEq

/-- One sweep of the vhost_user_client_reconnect loop body over the
reconnect list.  Each entry is paired with the result that
vhost_user_connect_nonblock produces for it this sweep (-2 fatal, -1 not
yet connected, 0 connected).  Returns the list that remains after the
sweep together with the effect trace, per the source: a fatal result
closes the descriptor then removes and frees the entry; a not-yet result
leaves the entry; a connected result calls vhost_user_add_connection and
then removes and frees the entry. -/
def reconnSweep : List (ReconnEntry × Int) → List ReconnEntry × List Effect
  | [] => ([], [])
  | (e, r) :: rest =>
    let s := reconnSweep rest
    if r = -2 then
      (s.1, [Effect.closeFd e.fd, Effect.removeReconn e.fd, Effect.freeReconn e.fd] ++ s.2)
    else if r = -1 then
      (e :: s.1, s.2)
    else
      (s.1, [Effect.addConnection e.fd, Effect.removeReconn e.fd, Effect.freeReconn e.fd] ++ s.2)

/-- Index of the first occurrence of an effect in a trace (length of the
trace when absent). -/
def idxOf (tr : List Effect) (a : Effect) : Nat := tr.findIdx fun x => x == a

/-- A live connection at teardown time.  The busy field abstracts the time
during which the connection's read callback is still in flight: while it is
positive, fdset_try_del on this connection fails; releasing and retaking
the connection mutex between sweeps gives the callback time to finish,
modelled as the busy count decreasing by one per failed attempt. -/
structure ConnSt where
  connfd : Int
  vid : Int
  busy : Nat
deriving DecidableEq

/-- The contiguous effect block that the cleanup loop performs for one
connection once its descriptor is successfully try-deregistered. -/
def cleanupBlock (c : ConnSt) : List Effect :=
  [Effect.fdsetTryDel c.connfd true, Effect.closeFd c.connfd,
   Effect.destroyDevice c.vid, Effect.removeConn c.connfd, Effect.freeConn]

/-- Concatenation of the cleanup blocks of a list of connections. -/
def blocksOf : List ConnSt → List Effect
  | [] => []
  | c :: rest => cleanupBlock c ++ blocksOf rest

/-- One pass of the for-loop in af_unix_socket_cleanup, starting from the
head of the (already mutated) connection list.  Returns the effects of the
pass and, when fdset_try_del failed on some connection, the connection list
as it stands for the retry (the failing connection, its busy count
decremented, followed by the untouched tail); none means the pass removed
every remaining connection. -/
def cleanupSweep : List ConnSt → List Effect × Option (List ConnSt)
  | [] => ([], none)
  | c :: rest =>
    if c.busy = 0 then
      let s := cleanupSweep rest
      (cleanupBlock c ++ s.1, s.2)
    else
      ([Effect.fdsetTryDel c.connfd false], some ({ c with busy := c.busy - 1 } :: rest))

/-- Termination measure of the cleanup retry loop: one unit per connection
plus its remaining busy time. -/
def connMeasure (l : List ConnSt) : Nat := (l.map fun c => c.busy + 1).sum

/-- Progress fact used by the termination argument of the cleanup retry
loop: a pass that ends in a retry strictly decreases the measure. -/
def cleanupSweepRetryDecreases :
    ∀ (l : List ConnSt) (tr : List Effect) (rest : List ConnSt),
      cleanupSweep l = (tr, some rest) → connMeasure rest < connMeasure l := by
  intro l
  induction l with
  | nil => intro tr rest h; simp [cleanupSweep] at h
  | cons c cs ih =>
    intro tr rest h
    by_cases hb : c.busy = 0
    · simp only [cleanupSweep, hb, if_true] at h
      obtain ⟨htr, hr⟩ := Prod.mk.injEq _ _ _ _ ▸ h
      have hlt := ih (cleanupSweep cs).1 rest (by
        cases hsw : cleanupSweep cs with
        | mk a b =>
          simp [hsw] at hr ⊢
          cases b with
          | none => simp at hr
          | some r => simp at hr; simp [hr])
      calc connMeasure rest < connMeasure cs := hlt
        _ < connMeasure (c :: cs) := by
            simp [connMeasure]
    · simp only [cleanupSweep, hb, if_false] at h
      obtain ⟨htr, hr⟩ := Prod.mk.injEq _ _ _ _ ▸ h
      have hrest : rest = { c with busy := c.busy - 1 } :: cs := by
        simpa using hr.symm
      subst hrest
      simp [connMeasure]
      omega

/-- The retry loop of af_unix_socket_cleanup: take the connection mutex,
run one pass; if some fdset_try_del failed, drop the mutex and start again
from the top of the (mutated) list; otherwise drop the mutex and return. -/
def cleanupLoop (l : List ConnSt) : List Effect :=
  Effect.lockConnMutex ::
    (match h : cleanupSweep l with
     | (tr, none) => tr ++ [Effect.unlockConnMutex]
     | (tr, some rest) => tr ++ Effect.unlockConnMutex :: cleanupLoop rest)
termination_by connMeasure l
decreasing_by exact cleanupSweepRetryDecreases l tr rest h

/-- Embedding of af_unix_socket_cleanup: the server branch deregisters and
closes the listening descriptor and unlinks the path; the reconnecting
client branch cancels the pending reconnect entry; then the retry loop
destroys every live connection; finally the connection mutex is
destroyed. -/
def af_unix_socket_cleanup (vs : VhostUserSocket) (socket_fd : Int)
    (conns : List ConnSt) : List Effect :=
  (if vs.is_server = true then
    [Effect.fdsetDel socket_fd, Effect.closeFd socket_fd, Effect.unlinkPath]
   else if vs.reconnect = true then
    [Effect.removeReconnectEntry]
   else []) ++
  cleanupLoop conns ++ [Effect.destroyConnMutex]

/-- The fds removed from the connection list, in trace order. -/
def removedConnFds (tr : List Effect) : List Int :=
  tr.filterMap fun e =>
    match e with
    | Effect.removeConn f => some f
    | _ => none

/-- The fds closed, in trace order. -/
def closedFds (tr : List Effect) : List Int :=
  tr.filterMap fun e =>
    match e with
    | Effect.closeFd f => some f
    | _ => none

/-- Whether an effect is an insertion into a connection list. -/
def isInsertConn : Effect → Bool :=
  fun e =>
    match e with
    | Effect.insertConn _ _ => true
    | _ => false

/-- Whether a trace contains an insertion into a connection list. -/
def hasInsert (tr : List Effect) : Bool := tr.any isInsertConn

/-- Every connection of the list has its cleanup block as a contiguous run
of the trace. -/
def allBlocksIn (conns : List ConnSt) (tr : List Effect) : Prop :=
  ∀ c ∈ conns, contiguousIn (cleanupBlock c) tr

/-- A sample client-mode endpoint with reconnection enabled and both owner
callbacks supplied, used to instantiate the theorems at concrete inputs. -/
def sampleSocket : VhostUserSocket :=
  { is_server := false, reconnect := true, use_builtin_virtio_net := true,
    dequeue_zero_copy := false, vdpa_dev_id := 0,
    notify_new_connection := true, notify_destroy_connection := true }

/-- A sample server-mode endpoint, used to instantiate the theorems at
concrete inputs. -/
def sampleServerSocket : VhostUserSocket :=
  { is_server := true, reconnect := false, use_builtin_virtio_net := true,
    dequeue_zero_copy := false, vdpa_dev_id := 0,
    notify_new_connection := false, notify_destroy_connection := false }

theorem sizeofCmsghdr_le_space (n : Nat) : ¬ CMSG_SPACE n < sizeofCmsghdr := by
  simp [CMSG_SPACE, cmsgAlign, sizeofCmsghdr]

theorem fillAbsent_take (old new : List Int) (m : Nat) :
    (fillAbsent old new m).take new.length = new := by
  rw [fillAbsent, List.append_assoc]
  exact List.take_left new _

theorem fillAbsent_drop_take (old new : List Int) (m : Nat) :
    ((fillAbsent old new m).drop new.length).take (m - new.length)
      = List.replicate (m - new.length) (-1) := by
  rw [fillAbsent, List.append_assoc, List.drop_left]
  have h2 := List.take_left (List.replicate (m - new.length) (-1 : Int))
    (old.drop (Nat.max new.length m))
  rw [List.length_replicate] at h2
  exact h2

theorem sendmsgRetry_spec (env : SendEnv) :
    ∀ n, (sendmsgRetry env n).ret = env.final_ret ∧
      (sendmsgRetry env n).errno = env.final_errno ∧
      (sendmsgRetry env n).sendmsg_calls = n + 1 ∧
      (sendmsgRetry env n).sendmsg_flags = List.replicate (n + 1) MSG_NOSIGNAL := by
  intro n
  induction n with
  | zero => simp [sendmsgRetry, List.replicate]
  | succ m ih =>
    obtain ⟨h1, h2, h3, h4⟩ := ih
    simp [sendmsgRetry, h1, h2, h3, h4, List.replicate]

/-- C4 counterexample: for odd output capacity, here max_fds = 1, a
SCM_RIGHTS record carrying max_fds + 1 = 2 descriptors fits the control
buffer exactly (CMSG_LEN(2 * sizeof(int)) ≤ CMSG_SPACE(1 * sizeof(int)),
both 24 bytes, because CMSG_ALIGN rounds the 4-byte payload up to 8), so
the kernel delivers it without MSG_CTRUNC; on that successful receive the
unclamped copy at the SCM_RIGHTS scan reports fd_num = 2 > max_fds = 1,
refuting the claim that at most max_fds descriptors are copied. -/
theorem read_fd_message_overflow_counterexample :
    CMSG_LEN (2 * sizeofInt) ≤ CMSG_SPACE (1 * sizeofInt) ∧
    cmsgCapacity 1 = 2 ∧
    (read_fd_message
      { recv_ret := 4, msg_trunc := false, msg_ctrunc := false,
        cmsgs := [{ cmsg_level := 1, cmsg_type := 1, payloadFds := [8, 9] }] }
      [7] 1).fd_num = 2 ∧
    ¬ (read_fd_message
      { recv_ret := 4, msg_trunc := false, msg_ctrunc := false,
        cmsgs := [{ cmsg_level := 1, cmsg_type := 1, payloadFds := [8, 9] }] }
      [7] 1).fd_num ≤ 1 := by
  decide

/-- C4 as amended: on every successful receive with output capacity
max_fds, at most cmsgCapacity max_fds descriptors are copied out of the
SCM_RIGHTS record — the control buffer's true descriptor capacity, which
is max_fds + 1 when max_fds is odd because of CMSG_ALIGN padding, and
max_fds when it is even — the reported count equals the number copied, and
every slot from that count up to max_fds - 1 holds the sentinel -1, never
left uninitialized.  The hypothesis hk is the kernel guarantee that,
absent MSG_CTRUNC, every delivered control message fits the declared
control buffer. -/
theorem read_fd_message_copies_and_fills (env : RecvEnv) (fds : List Int) (max_fds : Nat)
    (hr : 0 < env.recv_ret) (ht : env.msg_trunc = false) (hc : env.msg_ctrunc = false)
    (hk : ∀ c ∈ env.cmsgs, c.payloadFds.length ≤ cmsgCapacity max_fds) :
    (read_fd_message env fds max_fds).fd_num ≤ cmsgCapacity max_fds ∧
    (read_fd_message env fds max_fds).fd_num = (scmPayload env.cmsgs).length ∧
    (read_fd_message env fds max_fds).fds.take (read_fd_message env fds max_fds).fd_num
      = scmPayload env.cmsgs ∧
    ((read_fd_message env fds max_fds).fds.drop (read_fd_message env fds max_fds).fd_num).take
        (max_fds - (read_fd_message env fds max_fds).fd_num)
      = List.replicate (max_fds - (read_fd_message env fds max_fds).fd_num) (-1) := by
  have hr' : ¬ env.recv_ret ≤ 0 := by omega
  have hres : read_fd_message env fds max_fds =
      { ret := env.recv_ret, fds := fillAbsent fds (scmPayload env.cmsgs) max_fds,
        fd_num := (scmPayload env.cmsgs).length } := by
    cases hfind : scmRights? env.cmsgs with
    | none => simp [read_fd_message, hr', ht, hc, scmPayload, hfind]
    | some c => simp [read_fd_message, hr', ht, hc, scmPayload, hfind]
  have hlen : (scmPayload env.cmsgs).length ≤ cmsgCapacity max_fds := by
    unfold scmPayload
    cases hfind : scmRights? env.cmsgs with
    | none => simp
    | some c => exact hk c (List.mem_of_find?_eq_some hfind)
  rw [hres]
  exact ⟨hlen, rfl, fillAbsent_take fds _ max_fds, fillAbsent_drop_take fds _ max_fds⟩

theorem read_fd_message_copies_and_fills_witness :
    (read_fd_message
        { recv_ret := 4, msg_trunc := false, msg_ctrunc := false,
          cmsgs := [{ cmsg_level := 1, cmsg_type := 1, payloadFds := [9, 10] }] }
        [5, 6, 7] 3).fd_num ≤ cmsgCapacity 3 ∧
    (read_fd_message
        { recv_ret := 4, msg_trunc := false, msg_ctrunc := false,
          cmsgs := [{ cmsg_level := 1, cmsg_type := 1, payloadFds := [9, 10] }] }
        [5, 6, 7] 3).fd_num
      = (scmPayload [{ cmsg_level := 1, cmsg_type := 1, payloadFds := [9, 10] }]).length ∧
    (read_fd_message
        { recv_ret := 4, msg_trunc := false, msg_ctrunc := false,
          cmsgs := [{ cmsg_level := 1, cmsg_type := 1, payloadFds := [9, 10] }] }
        [5, 6, 7] 3).fds.take
        (read_fd_message
          { recv_ret := 4, msg_trunc := false, msg_ctrunc := false,
            cmsgs := [{ cmsg_level := 1, cmsg_type := 1, payloadFds := [9, 10] }] }
          [5, 6, 7] 3).fd_num
      = scmPayload [{ cmsg_level := 1, cmsg_type := 1, payloadFds := [9, 10] }] ∧
    ((read_fd_message
        { recv_ret := 4, msg_trunc := false, msg_ctrunc := false,
          cmsgs := [{ cmsg_level := 1, cmsg_type := 1, payloadFds := [9, 10] }] }
        [5, 6, 7] 3).fds.drop
        (read_fd_message
          { recv_ret := 4, msg_trunc := false, msg_ctrunc := false,
            cmsgs := [{ cmsg_level := 1, cmsg_type := 1, payloadFds := [9, 10] }] }
          [5, 6, 7] 3).fd_num).take
        (3 - (read_fd_message
          { recv_ret := 4, msg_trunc := false, msg_ctrunc := false,
            cmsgs := [{ cmsg_level := 1, cmsg_type := 1, payloadFds := [9, 10] }] }
          [5, 6, 7] 3).fd_num)
      = List.replicate
          (3 - (read_fd_message
            { recv_ret := 4, msg_trunc := false, msg_ctrunc := false,
              cmsgs := [{ cmsg_level := 1, cmsg_type := 1, payloadFds := [9, 10] }] }
            [5, 6, 7] 3).fd_num) (-1) :=
  read_fd_message_copies_and_fills _ _ _ (by decide) rfl rfl (by decide)

/-- C5: read_fd_message fails (returns a value ≤ 0) exactly when recvmsg
fails or returns ≤ 0 or when the kernel reports truncated data or control
information; the recvmsg return value is passed through on the first kind
of failure (so an orderly close, 0 bytes, stays distinguishable from a
negative errno failure), truncation returns -1, and on any other receive
the call succeeds and returns the number of bytes read. -/
theorem read_fd_message_failure_iff (env : RecvEnv) (fds : List Int) (max_fds : Nat) :
    ((read_fd_message env fds max_fds).ret ≤ 0 ↔
      (env.recv_ret ≤ 0 ∨ env.msg_trunc = true ∨ env.msg_ctrunc = true)) ∧
    (env.recv_ret ≤ 0 → (read_fd_message env fds max_fds).ret = env.recv_ret) ∧
    (0 < env.recv_ret → (env.msg_trunc = true ∨ env.msg_ctrunc = true) →
      (read_fd_message env fds max_fds).ret = -1) ∧
    (0 < env.recv_ret → env.msg_trunc = false → env.msg_ctrunc = false →
      (read_fd_message env fds max_fds).ret = env.recv_ret) := by
  by_cases hr : env.recv_ret ≤ 0
  · simp [read_fd_message, hr]
  · by_cases htc : env.msg_trunc = true ∨ env.msg_ctrunc = true
    · constructor
      · simp [read_fd_message, hr, htc]
      · refine ⟨fun h => absurd h hr, fun _ _ => ?_, fun _ ht hc => ?_⟩
        · simp [read_fd_message, hr, htc]
        · exact absurd htc (by simp [ht, hc])
    · have ht : env.msg_trunc = false := by
        rcases Bool.eq_false_or_eq_true env.msg_trunc with h | h
        · exact absurd (Or.inl h) htc
        · exact h
      have hc : env.msg_ctrunc = false := by
        rcases Bool.eq_false_or_eq_true env.msg_ctrunc with h | h
        · exact absurd (Or.inr h) htc
        · exact h
      cases hfind : scmRights? env.cmsgs with
      | none => simp [read_fd_message, hr, ht, hc, hfind]
      | some c => simp [read_fd_message, hr, ht, hc, hfind]

theorem read_fd_message_failure_iff_witness :
    ((read_fd_message { recv_ret := 0, msg_trunc := false, msg_ctrunc := false, cmsgs := [] }
        [7, 8] 2).ret ≤ 0 ↔
      ((0 : Int) ≤ 0 ∨ false = true ∨ false = true)) ∧
    ((0 : Int) ≤ 0 →
      (read_fd_message { recv_ret := 0, msg_trunc := false, msg_ctrunc := false, cmsgs := [] }
        [7, 8] 2).ret = 0) ∧
    ((0 : Int) < 0 → (false = true ∨ false = true) →
      (read_fd_message { recv_ret := 0, msg_trunc := false, msg_ctrunc := false, cmsgs := [] }
        [7, 8] 2).ret = -1) ∧
    ((0 : Int) < 0 → false = false → false = false →
      (read_fd_message { recv_ret := 0, msg_trunc := false, msg_ctrunc := false, cmsgs := [] }
        [7, 8] 2).ret = 0) :=
  read_fd_message_failure_iff { recv_ret := 0, msg_trunc := false, msg_ctrunc := false, cmsgs := [] }
    [7, 8] 2

/-- C10: on every failure return of read_fd_message (receive error, orderly
close, or truncation) the descriptor count out-parameter reads 0 (it is
zeroed before the receive) and the caller's fds array is left completely
unmodified; the array is written only on the success path. -/
theorem read_fd_message_failure_frame (env : RecvEnv) (fds : List Int) (max_fds : Nat)
    (h : env.recv_ret ≤ 0 ∨ env.msg_trunc = true ∨ env.msg_ctrunc = true) :
    (read_fd_message env fds max_fds).fd_num = 0 ∧
    (read_fd_message env fds max_fds).fds = fds := by
  by_cases hr : env.recv_ret ≤ 0
  · simp [read_fd_message, hr]
  · have htc : env.msg_trunc = true ∨ env.msg_ctrunc = true := by
      rcases h with h | h
      · exact absurd h hr
      · exact h
    simp [read_fd_message, hr, htc]

theorem read_fd_message_failure_frame_witness :
    (read_fd_message
        { recv_ret := 5, msg_trunc := true, msg_ctrunc := false,
          cmsgs := [{ cmsg_level := 1, cmsg_type := 1, payloadFds := [9] }] }
        [7, 8] 2).fd_num = 0 ∧
    (read_fd_message
        { recv_ret := 5, msg_trunc := true, msg_ctrunc := false,
          cmsgs := [{ cmsg_level := 1, cmsg_type := 1, payloadFds := [9] }] }
        [7, 8] 2).fds = [7, 8] :=
  read_fd_message_failure_frame _ _ _ (Or.inr (Or.inl rfl))

/-- C6: send_fd_message retries sendmsg transparently while it fails with
EINTR, never surfacing that error; every sendmsg attempt passes the
MSG_NOSIGNAL flag (suppressing SIGPIPE on broken-pipe conditions), a
broken-pipe failure surfaces as a negative return, and on success the call
returns the byte count of the single successful sendmsg. -/
theorem send_fd_message_eintr_transparent (env : SendEnv) (hasFds : Bool) (fd_num : Nat)
    (h : env.final_ret < 0 → env.final_errno ≠ EINTR) :
    (send_fd_message env hasFds fd_num).ret = env.final_ret ∧
    (send_fd_message env hasFds fd_num).sendmsg_calls = env.eintr_failures + 1 ∧
    (send_fd_message env hasFds fd_num).sendmsg_flags
      = List.replicate (env.eintr_failures + 1) MSG_NOSIGNAL ∧
    ¬((send_fd_message env hasFds fd_num).ret < 0 ∧
      (send_fd_message env hasFds fd_num).errno = EINTR) ∧
    (env.final_ret < 0 → (send_fd_message env hasFds fd_num).ret < 0) := by
  have hsp := sizeofCmsghdr_le_space (fd_num * sizeofInt)
  have heq : send_fd_message env hasFds fd_num = sendmsgRetry env env.eintr_failures := by
    by_cases hfd : hasFds = true ∧ 0 < fd_num
    · simp [send_fd_message, hfd, hsp]
    · simp [send_fd_message, hfd]
  obtain ⟨h1, h2, h3, h4⟩ := sendmsgRetry_spec env env.eintr_failures
  rw [heq, h1, h2, h3, h4]
  refine ⟨rfl, rfl, rfl, ?_, fun hlt => hlt⟩
  rintro ⟨hlt, herr⟩
  exact h hlt herr

theorem send_fd_message_eintr_transparent_witness :
    (send_fd_message { eintr_failures := 2, final_ret := 5, final_errno := 0 } true 1).ret = 5 ∧
    (send_fd_message { eintr_failures := 2, final_ret := 5, final_errno := 0 } true 1).sendmsg_calls
      = 2 + 1 ∧
    (send_fd_message { eintr_failures := 2, final_ret := 5, final_errno := 0 } true 1).sendmsg_flags
      = List.replicate (2 + 1) MSG_NOSIGNAL ∧
    ¬((send_fd_message { eintr_failures := 2, final_ret := 5, final_errno := 0 } true 1).ret < 0 ∧
      (send_fd_message { eintr_failures := 2, final_ret := 5, final_errno := 0 } true 1).errno
        = EINTR) ∧
    ((5 : Int) < 0 →
      (send_fd_message { eintr_failures := 2, final_ret := 5, final_errno := 0 } true 1).ret < 0) :=
  send_fd_message_eintr_transparent _ _ _ (by decide)

/-- C9: vhost_user_add_connection invoked with a NULL endpoint returns
immediately having performed no effect at all; in particular the passed
descriptor is not closed and remains open. -/
theorem add_connection_null_endpoint (fd : Int) (env : AddConnEnv) :
    vhost_user_add_connection fd none env = [] ∧
    Effect.closeFd fd ∉ vhost_user_add_connection fd none env := by
  constructor
  · rfl
  · intro h
    simp [vhost_user_add_connection] at h

theorem hasInsert_append (a b : List Effect) :
    hasInsert (a ++ b) = (hasInsert a || hasInsert b) := by
  simp [hasInsert]

theorem hasInsert_ite (P : Prop) [Decidable P] (a b : List Effect) :
    hasInsert (if P then a else b) = if P then hasInsert a else hasInsert b := by
  by_cases h : P <;> simp [h]

/-- C1: when vhost_user_add_connection fails at any step after the
connection record is allocated — device creation fails, the owner's
new_connection callback fails, or dispatcher registration fails — every
resource acquired earlier is rolled back: the record is freed, the passed
fd is closed, the device is destroyed whenever it had been created, the
destroy_connection callback (when present) runs immediately before device
destruction in the registration-failure case, and the connection is never
inserted into the endpoint's list. -/
theorem add_connection_rollback (fd : Int) (vs : VhostUserSocket) (env : AddConnEnv)
    (hm : env.malloc_ok = true)
    (hfail : env.new_device_vid = -1 ∨
      (vs.notify_new_connection = true ∧ env.new_connection_ret < 0) ∨
      env.fdset_add_ret < 0) :
    hasInsert (vhost_user_add_connection fd (some vs) env) = false ∧
    Effect.freeConn ∈ vhost_user_add_connection fd (some vs) env ∧
    Effect.closeFd fd ∈ vhost_user_add_connection fd (some vs) env ∧
    (env.new_device_vid ≠ -1 →
      Effect.destroyDevice env.new_device_vid ∈ vhost_user_add_connection fd (some vs) env) ∧
    (env.new_device_vid ≠ -1 →
      ¬(vs.notify_new_connection = true ∧ env.new_connection_ret < 0) →
      env.fdset_add_ret < 0 → vs.notify_destroy_connection = true →
      contiguousIn
        [Effect.destroyConnectionCb env.new_device_vid,
         Effect.destroyDevice env.new_device_vid]
        (vhost_user_add_connection fd (some vs) env)) := by
  by_cases hvid : env.new_device_vid = -1
  · refine ⟨?_, ?_, ?_, fun h => absurd hvid h, fun h => absurd hvid h⟩ <;>
      simp [vhost_user_add_connection, hm, hvid, hasInsert, isInsertConn]
  · by_cases hcb : vs.notify_new_connection = true ∧ env.new_connection_ret < 0
    · refine ⟨?_, ?_, ?_, fun _ => ?_, fun _ hn => absurd hcb hn⟩
      · simp [vhost_user_add_connection, addConnCfg, hm, hvid, hcb,
          hasInsert_append, hasInsert_ite, hasInsert, isInsertConn]
      · simp [vhost_user_add_connection, hm, hvid, hcb]
      · simp [vhost_user_add_connection, hm, hvid, hcb]
      · simp [vhost_user_add_connection, hm, hvid, hcb]
    · have hf : env.fdset_add_ret < 0 := by
        rcases hfail with h | h | h
        · exact absurd h hvid
        · exact absurd h hcb
        · exact h
      refine ⟨?_, ?_, ?_, fun _ => ?_, fun _ _ _ hd => ?_⟩
      · simp [vhost_user_add_connection, addConnCfg, hm, hvid, hcb, hf,
          hasInsert_append, hasInsert_ite, hasInsert, isInsertConn]
      · simp [vhost_user_add_connection, hm, hvid, hcb, hf]
      · simp [vhost_user_add_connection, hm, hvid, hcb, hf]
      · simp [vhost_user_add_connection, hm, hvid, hcb, hf]
      · refine ⟨addConnCfg vs env.new_device_vid ++
          (if vs.notify_new_connection = true then
            [Effect.newConnectionCb env.new_device_vid env.new_connection_ret]
           else []) ++ [Effect.fdsetAdd fd false],
          [Effect.freeConn, Effect.closeFd fd], ?_⟩
        simp [vhost_user_add_connection, hm, hvid, hcb, hf, hd]

theorem add_connection_rollback_witness :
    hasInsert (vhost_user_add_connection 7 (some sampleSocket)
      { malloc_ok := true, new_device_vid := 3, new_connection_ret := 0,
        fdset_add_ret := -1 }) = false ∧
    Effect.freeConn ∈ vhost_user_add_connection 7 (some sampleSocket)
      { malloc_ok := true, new_device_vid := 3, new_connection_ret := 0,
        fdset_add_ret := -1 } ∧
    Effect.closeFd 7 ∈ vhost_user_add_connection 7 (some sampleSocket)
      { malloc_ok := true, new_device_vid := 3, new_connection_ret := 0,
        fdset_add_ret := -1 } ∧
    ((3 : Int) ≠ -1 →
      Effect.destroyDevice 3 ∈ vhost_user_add_connection 7 (some sampleSocket)
        { malloc_ok := true, new_device_vid := 3, new_connection_ret := 0,
          fdset_add_ret := -1 }) ∧
    ((3 : Int) ≠ -1 →
      ¬(sampleSocket.notify_new_connection = true ∧ (0 : Int) < 0) →
      (-1 : Int) < 0 → sampleSocket.notify_destroy_connection = true →
      contiguousIn [Effect.destroyConnectionCb 3, Effect.destroyDevice 3]
        (vhost_user_add_connection 7 (some sampleSocket)
          { malloc_ok := true, new_device_vid := 3, new_connection_ret := 0,
            fdset_add_ret := -1 })) :=
  add_connection_rollback 7 sampleSocket
    { malloc_ok := true, new_device_vid := 3, new_connection_ret := 0,
      fdset_add_ret := -1 }
    rfl (Or.inr (Or.inr (by decide)))

/-- C2: when the protocol handler reports failure, vhost_user_read_cb
tears the connection down in source order — close the fd and set the
dispatcher removal flag, notify device-destroyed when the device is live,
invoke the destroy_connection callback when present, destroy the device,
remove the connection from the endpoint list under the list lock, free the
record — and afterwards re-creates the socket and re-runs the client
startup sequence exactly when the endpoint is client-mode with
reconnection enabled.  The hypothesis hinv is the registration-time
invariant that only client-mode endpoints have reconnection enabled. -/
theorem read_cb_failure_teardown (connfd : Int) (conn : ConnDat) (env : ReadCbEnv)
    (hinv : conn.vsocket.reconnect = true → conn.vsocket.is_server = false)
    (hfail : env.msg_handler_ret < 0) :
    (vhost_user_read_cb connfd conn env).remove = true ∧
    (vhost_user_read_cb connfd conn env).trace =
      [Effect.msgHandler conn.vid connfd env.msg_handler_ret,
       Effect.closeFd connfd, Effect.setRemoveFlag] ++
      (if env.dev_present = true then [Effect.destroyDeviceNotify conn.vid] else []) ++
      (if conn.vsocket.notify_destroy_connection = true then
        [Effect.destroyConnectionCb conn.vid] else []) ++
      [Effect.destroyDevice conn.vid, Effect.lockConnMutex,
       Effect.removeConn connfd, Effect.unlockConnMutex, Effect.freeConn] ++
      (if conn.vsocket.is_server = false ∧ conn.vsocket.reconnect = true then
        [Effect.createUnixSocket, Effect.startClient] else []) := by
  constructor
  · simp [vhost_user_read_cb, hfail]
  · by_cases hrec : conn.vsocket.reconnect = true
    · have hsv := hinv hrec
      simp [vhost_user_read_cb, hfail, hrec, hsv]
    · have hrec2 : conn.vsocket.reconnect = false := by
        rcases Bool.eq_false_or_eq_true conn.vsocket.reconnect with h | h
        · exact absurd h hrec
        · exact h
      simp [vhost_user_read_cb, hfail, hrec2]

theorem read_cb_failure_teardown_witness :
    (vhost_user_read_cb 9 { vid := 3, vsocket := sampleSocket }
      { msg_handler_ret := -1, dev_present := true }).remove = true ∧
    (vhost_user_read_cb 9 { vid := 3, vsocket := sampleSocket }
      { msg_handler_ret := -1, dev_present := true }).trace =
      [Effect.msgHandler 3 9 (-1), Effect.closeFd 9, Effect.setRemoveFlag] ++
      (if true = true then [Effect.destroyDeviceNotify 3] else []) ++
      (if sampleSocket.notify_destroy_connection = true then
        [Effect.destroyConnectionCb 3] else []) ++
      [Effect.destroyDevice 3, Effect.lockConnMutex,
       Effect.removeConn 9, Effect.unlockConnMutex, Effect.freeConn] ++
      (if sampleSocket.is_server = false ∧ sampleSocket.reconnect = true then
        [Effect.createUnixSocket, Effect.startClient] else []) :=
  read_cb_failure_teardown 9 { vid := 3, vsocket := sampleSocket }
    { msg_handler_ret := -1, dev_present := true }
    (by decide) (by decide)

theorem contiguousIn_append_left (pre : List Effect) {a tr : List Effect}
    (h : contiguousIn a tr) : contiguousIn a (pre ++ tr) := by
  obtain ⟨s, t, hst⟩ := h
  exact ⟨pre ++ s, t, by rw [← hst]; simp⟩

theorem contiguousIn_append_right (post : List Effect) {a tr : List Effect}
    (h : contiguousIn a tr) : contiguousIn a (tr ++ post) := by
  obtain ⟨s, t, hst⟩ := h
  exact ⟨s, t ++ post, by rw [← hst]; simp⟩

theorem contiguousIn_cons (e : Effect) {a tr : List Effect}
    (h : contiguousIn a tr) : contiguousIn a (e :: tr) :=
  contiguousIn_append_left [e] h

theorem removedConnFds_blocksOf (l : List ConnSt) :
    removedConnFds (blocksOf l) = l.map fun c => c.connfd := by
  induction l with
  | nil => rfl
  | cons c cs ih =>
    rw [blocksOf, removedConnFds, List.filterMap_append]
    rw [removedConnFds] at ih
    rw [ih]
    rfl

theorem closedFds_blocksOf (l : List ConnSt) :
    closedFds (blocksOf l) = l.map fun c => c.connfd := by
  induction l with
  | nil => rfl
  | cons c cs ih =>
    rw [blocksOf, closedFds, List.filterMap_append]
    rw [closedFds] at ih
    rw [ih]
    rfl

theorem blocks_contig (l : List ConnSt) :
    ∀ c ∈ l, contiguousIn (cleanupBlock c) (blocksOf l) := by
  induction l with
  | nil => intro c hc; cases hc
  | cons c0 cs ih =>
    intro c hc
    rcases List.mem_cons.mp hc with heq | htl
    · subst heq
      exact ⟨[], blocksOf cs, by simp [blocksOf]⟩
    · rw [blocksOf]
      exact contiguousIn_append_left _ (ih c htl)

theorem cleanupSweep_none_spec :
    ∀ (l : List ConnSt) (tr : List Effect), cleanupSweep l = (tr, none) →
      tr = blocksOf l := by
  intro l
  induction l with
  | nil =>
    intro tr h
    simp [cleanupSweep] at h
    simp [h, blocksOf]
  | cons c cs ih =>
    intro tr h
    by_cases hb : c.busy = 0
    · simp only [cleanupSweep, hb, if_true] at h
      cases hsw : cleanupSweep cs with
      | mk a b =>
        rw [hsw] at h
        simp at h
        obtain ⟨htr, hb2⟩ := h
        have ha := ih a (by rw [hsw, hb2])
        rw [← htr, ha, blocksOf]
    · simp only [cleanupSweep, hb, if_false] at h
      simp at h

theorem cleanupSweep_some_spec :
    ∀ (l : List ConnSt) (tr : List Effect) (rest : List ConnSt),
      cleanupSweep l = (tr, some rest) →
      ∃ pre c rest₀, l = pre ++ c :: rest₀ ∧
        rest = { c with busy := c.busy - 1 } :: rest₀ ∧
        tr = blocksOf pre ++ [Effect.fdsetTryDel c.connfd false] := by
  intro l
  induction l with
  | nil => intro tr rest h; simp [cleanupSweep] at h
  | cons c cs ih =>
    intro tr rest h
    by_cases hb : c.busy = 0
    · simp only [cleanupSweep, hb, if_true] at h
      cases hsw : cleanupSweep cs with
      | mk a b =>
        rw [hsw] at h
        simp at h
        obtain ⟨htr, hb2⟩ := h
        obtain ⟨pre, c0, rest₀, hl, hr, ht⟩ := ih a rest (by rw [hsw, hb2])
        refine ⟨c :: pre, c0, rest₀, by simp [hl], hr, ?_⟩
        rw [← htr, ht, blocksOf]
        simp
    · simp only [cleanupSweep, hb, if_false] at h
      simp at h
      obtain ⟨htr, hrest⟩ := h
      exact ⟨[], c, cs, by simp, hrest.symm, by simp [htr.symm, blocksOf]⟩

theorem cleanupLoop_none (l : List ConnSt) (tr : List Effect)
    (h : cleanupSweep l = (tr, none)) :
    cleanupLoop l = Effect.lockConnMutex :: (tr ++ [Effect.unlockConnMutex]) := by
  rw [cleanupLoop]
  split
  · rename_i tr2 h2
    rw [h] at h2
    cases h2
    rfl
  · rename_i tr2 rest h2
    rw [h] at h2
    cases h2

theorem cleanupLoop_some (l : List ConnSt) (tr : List Effect) (rest : List ConnSt)
    (h : cleanupSweep l = (tr, some rest)) :
    cleanupLoop l
      = Effect.lockConnMutex :: (tr ++ Effect.unlockConnMutex :: cleanupLoop rest) := by
  rw [cleanupLoop]
  split
  · rename_i tr2 h2
    rw [h] at h2
    cases h2
  · rename_i tr2 rest2 h2
    rw [h] at h2
    cases h2
    rfl

theorem cleanupLoop_spec (l : List ConnSt) :
    removedConnFds (cleanupLoop l) = l.map (fun c => c.connfd) ∧
    closedFds (cleanupLoop l) = l.map (fun c => c.connfd) ∧
    allBlocksIn l (cleanupLoop l) := by
  induction l using cleanupLoop.induct with
  | _ l ihall => ?_
  cases hsw : cleanupSweep l with
  | mk tr ob => ?_
  cases ob with
  | none =>
    have h := hsw
    have hL := cleanupLoop_none l tr h
    have htr := cleanupSweep_none_spec l tr h
    subst htr
    rw [hL]
    refine ⟨?_, ?_, ?_⟩
    · rw [removedConnFds, List.filterMap_cons, List.filterMap_append]
      have h1 := removedConnFds_blocksOf l
      rw [removedConnFds] at h1
      simp [h1, removedConnFds]
    · rw [closedFds, List.filterMap_cons, List.filterMap_append]
      have h1 := closedFds_blocksOf l
      rw [closedFds] at h1
      simp [h1, closedFds]
    · intro c hc
      exact contiguousIn_cons _ (contiguousIn_append_right _ (blocks_contig l c hc))
  | some rest =>
    have h := hsw
    have ih := ihall tr rest h
    have hL := cleanupLoop_some l tr rest h
    obtain ⟨pre, c0, rest₀, hl, hr, ht⟩ := cleanupSweep_some_spec l tr rest h
    obtain ⟨ih1, ih2, ih3⟩ := ih
    have hmapl : l.map (fun c => c.connfd)
        = pre.map (fun c => c.connfd) ++ c0.connfd :: rest₀.map (fun c => c.connfd) := by
      rw [hl]; simp
    have hmapr : rest.map (fun c => c.connfd) = c0.connfd :: rest₀.map (fun c => c.connfd) := by
      rw [hr]; simp
    have hremtr : removedConnFds tr = pre.map fun c => c.connfd := by
      rw [ht, removedConnFds, List.filterMap_append]
      have h1 := removedConnFds_blocksOf pre
      rw [removedConnFds] at h1
      simp [h1]
    have hclotr : closedFds tr = pre.map fun c => c.connfd := by
      rw [ht, closedFds, List.filterMap_append]
      have h1 := closedFds_blocksOf pre
      rw [closedFds] at h1
      simp [h1]
    rw [hL]
    refine ⟨?_, ?_, ?_⟩
    · rw [removedConnFds, List.filterMap_cons, List.filterMap_append, List.filterMap_cons]
      rw [removedConnFds] at hremtr ih1
      simp [hremtr, ih1, hmapl, hmapr]
    · rw [closedFds, List.filterMap_cons, List.filterMap_append, List.filterMap_cons]
      rw [closedFds] at hclotr ih2
      simp [hclotr, ih2, hmapl, hmapr]
    · intro c hc
      rw [hl] at hc
      rcases List.mem_append.mp hc with hpre | hcr
      · have hc1 : contiguousIn (cleanupBlock c) tr := by
          rw [ht]
          exact contiguousIn_append_right _ (blocks_contig pre c hpre)
        exact contiguousIn_cons _ (contiguousIn_append_right _ hc1)
      · have hcrest : contiguousIn (cleanupBlock c) (cleanupLoop rest) := by
          rcases List.mem_cons.mp hcr with heq | htl
          · subst heq
            have hmem : ({ c with busy := c.busy - 1 } : ConnSt) ∈ rest := by
              rw [hr]
              exact List.mem_cons_self _ _
            have hco := ih3 { c with busy := c.busy - 1 } hmem
            exact hco
          · have hmem : c ∈ rest := by
              rw [hr]
              exact List.mem_cons_of_mem _ htl
            exact ih3 c hmem
        exact contiguousIn_cons _ (contiguousIn_append_left tr (contiguousIn_cons _ hcrest))

/-- C3: af_unix_socket_cleanup terminates (the retry loop is well-founded
under the fairness abstraction that a failed try-deregistration gives the
in-flight callback time to finish) and leaves no residue: every connection
present at teardown is removed from the list exactly once and in order,
its cleanup block — successful try-deregistration first, then close, then
device destruction, then list removal, then free — appears contiguously in
the trace, and in server mode the listening descriptor is additionally
deregistered, closed and the socket path unlinked, so the closed
descriptors are exactly the listening one plus every connection's. -/
theorem socket_cleanup_complete (vs : VhostUserSocket) (socket_fd : Int)
    (conns : List ConnSt) :
    removedConnFds (af_unix_socket_cleanup vs socket_fd conns)
      = conns.map (fun c => c.connfd) ∧
    allBlocksIn conns (af_unix_socket_cleanup vs socket_fd conns) ∧
    (vs.is_server = true →
      closedFds (af_unix_socket_cleanup vs socket_fd conns)
        = socket_fd :: conns.map (fun c => c.connfd) ∧
      contiguousIn [Effect.fdsetDel socket_fd, Effect.closeFd socket_fd, Effect.unlinkPath]
        (af_unix_socket_cleanup vs socket_fd conns)) ∧
    (vs.is_server = false →
      closedFds (af_unix_socket_cleanup vs socket_fd conns)
        = conns.map (fun c => c.connfd)) := by
  obtain ⟨h1, h2, h3⟩ := cleanupLoop_spec conns
  by_cases hs : vs.is_server = true
  · refine ⟨?_, ?_, fun _ => ⟨?_, ?_⟩, ?_⟩
    · rw [removedConnFds] at h1 ⊢
      simp [af_unix_socket_cleanup, hs, List.filterMap_append, h1, removedConnFds]
    · intro c hc
      rw [af_unix_socket_cleanup]
      rw [List.append_assoc]
      exact contiguousIn_append_left _ (contiguousIn_append_right _ (h3 c hc))
    · rw [closedFds] at h2 ⊢
      simp [af_unix_socket_cleanup, hs, List.filterMap_append, h2, closedFds]
    · exact ⟨[], cleanupLoop conns ++ [Effect.destroyConnMutex],
        by simp [af_unix_socket_cleanup, hs]⟩
    · intro hfalse
      rw [hs] at hfalse
      cases hfalse
  · have hs2 : vs.is_server = false := by
      rcases Bool.eq_false_or_eq_true vs.is_server with h | h
      · exact absurd h hs
      · exact h
    refine ⟨?_, ?_, ?_, fun _ => ?_⟩
    · rw [removedConnFds] at h1 ⊢
      by_cases hrec : vs.reconnect = true <;>
        simp [af_unix_socket_cleanup, hs2, hrec, List.filterMap_append, h1, removedConnFds]
    · intro c hc
      rw [af_unix_socket_cleanup]
      rw [List.append_assoc]
      exact contiguousIn_append_left _ (contiguousIn_append_right _ (h3 c hc))
    · intro htrue
      rw [hs2] at htrue
      cases htrue
    · rw [closedFds] at h2 ⊢
      by_cases hrec : vs.reconnect = true <;>
        simp [af_unix_socket_cleanup, hs2, hrec, List.filterMap_append, h2, closedFds]

theorem socket_cleanup_complete_witness :
    removedConnFds (af_unix_socket_cleanup sampleServerSocket 8
        [{ connfd := 10, vid := 1, busy := 0 }, { connfd := 11, vid := 2, busy := 2 }])
      = [10, 11] ∧
    allBlocksIn
      [{ connfd := 10, vid := 1, busy := 0 }, { connfd := 11, vid := 2, busy := 2 }]
      (af_unix_socket_cleanup sampleServerSocket 8
        [{ connfd := 10, vid := 1, busy := 0 }, { connfd := 11, vid := 2, busy := 2 }]) ∧
    (sampleServerSocket.is_server = true →
      closedFds (af_unix_socket_cleanup sampleServerSocket 8
          [{ connfd := 10, vid := 1, busy := 0 }, { connfd := 11, vid := 2, busy := 2 }])
        = 8 :: [10, 11] ∧
      contiguousIn [Effect.fdsetDel 8, Effect.closeFd 8, Effect.unlinkPath]
        (af_unix_socket_cleanup sampleServerSocket 8
          [{ connfd := 10, vid := 1, busy := 0 }, { connfd := 11, vid := 2, busy := 2 }])) ∧
    (sampleServerSocket.is_server = false →
      closedFds (af_unix_socket_cleanup sampleServerSocket 8
          [{ connfd := 10, vid := 1, busy := 0 }, { connfd := 11, vid := 2, busy := 2 }])
        = [10, 11]) :=
  socket_cleanup_complete sampleServerSocket 8
    [{ connfd := 10, vid := 1, busy := 0 }, { connfd := 11, vid := 2, busy := 2 }]

theorem connect_nonblock_no_park_no_close (fd : Int) (cv : ConnectEnv) :
    Effect.parkReconn fd ∉ (vhost_user_connect_nonblock fd cv).trace ∧
    Effect.closeFd fd ∉ (vhost_user_connect_nonblock fd cv).trace := by
  unfold vhost_user_connect_nonblock
  split_ifs <;> simp

/-- C7 counterexample: on a retryable connect failure with reconnection
enabled, when allocation of the reconnect record fails, the call closes
the descriptor and fails instead of parking a reconnect entry and
returning success, contradicting the claimed trichotomy. -/
theorem start_client_malloc_fail_counterexample :
    (vhost_user_connect_nonblock 3
      { connect_ret := -1, connect_errno := 0, fcntl_getfl := 0, fcntl_setfl_ok := true }).ret = -1 ∧
    sampleSocket.reconnect = true ∧
    (vhost_user_start_client sampleSocket 3
      { cenv := { connect_ret := -1, connect_errno := 0, fcntl_getfl := 0, fcntl_setfl_ok := true },
        reconn_malloc_ok := false }).ret = -1 ∧
    Effect.parkReconn 3 ∉ (vhost_user_start_client sampleSocket 3
      { cenv := { connect_ret := -1, connect_errno := 0, fcntl_getfl := 0, fcntl_setfl_ok := true },
        reconn_malloc_ok := false }).trace ∧
    Effect.closeFd 3 ∈ (vhost_user_start_client sampleSocket 3
      { cenv := { connect_ret := -1, connect_errno := 0, fcntl_getfl := 0, fcntl_setfl_ok := true },
        reconn_malloc_ok := false }).trace := by
  decide

/-- C7 as amended: vhost_user_start_client has exactly three outcomes — on
immediate connect success (EISCONN included) the non-blocking flag is
cleared when it was set and the descriptor is routed to the connection
creation path with a success return; on a retryable failure with
reconnection enabled and a successful reconnect-record allocation the
descriptor is parked as a reconnect entry and the call returns success; on
a fatal flag-manipulation failure, a retryable failure with reconnection
disabled, or a retryable failure whose reconnect-record allocation fails,
the descriptor is closed and the call fails. -/
theorem start_client_outcomes (vs : VhostUserSocket) (fd : Int) (env : StartClientEnv) :
    ((vhost_user_connect_nonblock fd env.cenv).ret = 0 ∨
     (vhost_user_connect_nonblock fd env.cenv).ret = -1 ∨
     (vhost_user_connect_nonblock fd env.cenv).ret = -2) ∧
    (env.cenv.connect_errno = EISCONN →
      (vhost_user_connect_nonblock fd env.cenv).ret ≠ -1) ∧
    ((vhost_user_connect_nonblock fd env.cenv).ret = 0 →
      (vhost_user_start_client vs fd env).ret = 0 ∧
      (vhost_user_start_client vs fd env).trace =
        (vhost_user_connect_nonblock fd env.cenv).trace ++ [Effect.addConnection fd]) ∧
    ((vhost_user_connect_nonblock fd env.cenv).ret = 0 →
      0 ≤ env.cenv.fcntl_getfl →
      Nat.land env.cenv.fcntl_getfl.toNat O_NONBLOCK ≠ 0 →
      Effect.clearNonblock fd ∈ (vhost_user_start_client vs fd env).trace) ∧
    ((vhost_user_connect_nonblock fd env.cenv).ret = -1 → vs.reconnect = true →
      env.reconn_malloc_ok = true →
      (vhost_user_start_client vs fd env).ret = 0 ∧
      Effect.parkReconn fd ∈ (vhost_user_start_client vs fd env).trace ∧
      Effect.closeFd fd ∉ (vhost_user_start_client vs fd env).trace) ∧
    (((vhost_user_connect_nonblock fd env.cenv).ret = -2 ∨
      ((vhost_user_connect_nonblock fd env.cenv).ret = -1 ∧ vs.reconnect = false) ∨
      ((vhost_user_connect_nonblock fd env.cenv).ret = -1 ∧ env.reconn_malloc_ok = false)) →
      (vhost_user_start_client vs fd env).ret = -1 ∧
      Effect.closeFd fd ∈ (vhost_user_start_client vs fd env).trace ∧
      Effect.parkReconn fd ∉ (vhost_user_start_client vs fd env).trace) := by
  obtain ⟨hnopark, hnoclose⟩ := connect_nonblock_no_park_no_close fd env.cenv
  refine ⟨?_, ?_, ?_, ?_, ?_, ?_⟩
  · unfold vhost_user_connect_nonblock
    split_ifs <;> simp
  · intro he
    unfold vhost_user_connect_nonblock
    split_ifs with hA hB hC hD <;> simp_all
  · intro h0
    simp [vhost_user_start_client, h0]
  · intro h0 hge hland
    have hA : ¬(env.cenv.connect_ret < 0 ∧ env.cenv.connect_errno ≠ EISCONN) := by
      intro hA
      simp [vhost_user_connect_nonblock, hA] at h0
    have hgl : ¬(env.cenv.fcntl_getfl < 0) := by omega
    have hsf : env.cenv.fcntl_setfl_ok = true := by
      rcases Bool.eq_false_or_eq_true env.cenv.fcntl_setfl_ok with h | h
      · exact h
      · simp [vhost_user_connect_nonblock, hA, hgl, hland, h] at h0
    simp [vhost_user_start_client, h0, vhost_user_connect_nonblock, hA, hgl, hland, hsf]
  · intro h1 hrec hmal
    simp [vhost_user_start_client, h1, hrec, hmal, hnoclose]
  · intro hcase
    rcases hcase with h2 | ⟨h1, hrec⟩ | ⟨h1, hmal⟩
    · simp [vhost_user_start_client, h2, hnopark]
    · simp [vhost_user_start_client, h1, hrec, hnopark]
    · simp [vhost_user_start_client, h1, hmal, hnopark]

theorem start_client_outcomes_witness :
    ((vhost_user_connect_nonblock 4
        { connect_ret := 0, connect_errno := 0, fcntl_getfl := 2048, fcntl_setfl_ok := true }).ret = 0 ∨
     (vhost_user_connect_nonblock 4
        { connect_ret := 0, connect_errno := 0, fcntl_getfl := 2048, fcntl_setfl_ok := true }).ret = -1 ∨
     (vhost_user_connect_nonblock 4
        { connect_ret := 0, connect_errno := 0, fcntl_getfl := 2048, fcntl_setfl_ok := true }).ret = -2) ∧
    ((0 : Nat) = EISCONN →
      (vhost_user_connect_nonblock 4
        { connect_ret := 0, connect_errno := 0, fcntl_getfl := 2048, fcntl_setfl_ok := true }).ret ≠ -1) ∧
    ((vhost_user_connect_nonblock 4
        { connect_ret := 0, connect_errno := 0, fcntl_getfl := 2048, fcntl_setfl_ok := true }).ret = 0 →
      (vhost_user_start_client sampleSocket 4
        { cenv := { connect_ret := 0, connect_errno := 0, fcntl_getfl := 2048, fcntl_setfl_ok := true },
          reconn_malloc_ok := true }).ret = 0 ∧
      (vhost_user_start_client sampleSocket 4
        { cenv := { connect_ret := 0, connect_errno := 0, fcntl_getfl := 2048, fcntl_setfl_ok := true },
          reconn_malloc_ok := true }).trace =
        (vhost_user_connect_nonblock 4
          { connect_ret := 0, connect_errno := 0, fcntl_getfl := 2048, fcntl_setfl_ok := true }).trace ++ [Effect.addConnection 4]) ∧
    ((vhost_user_connect_nonblock 4
        { connect_ret := 0, connect_errno := 0, fcntl_getfl := 2048, fcntl_setfl_ok := true }).ret = 0 →
      (0 : Int) ≤ 2048 →
      Nat.land (Int.toNat 2048) O_NONBLOCK ≠ 0 →
      Effect.clearNonblock 4 ∈ (vhost_user_start_client sampleSocket 4
        { cenv := { connect_ret := 0, connect_errno := 0, fcntl_getfl := 2048, fcntl_setfl_ok := true },
          reconn_malloc_ok := true }).trace) ∧
    ((vhost_user_connect_nonblock 4
        { connect_ret := 0, connect_errno := 0, fcntl_getfl := 2048, fcntl_setfl_ok := true }).ret = -1 → sampleSocket.reconnect = true →
      true = true →
      (vhost_user_start_client sampleSocket 4
        { cenv := { connect_ret := 0, connect_errno := 0, fcntl_getfl := 2048, fcntl_setfl_ok := true },
          reconn_malloc_ok := true }).ret = 0 ∧
      Effect.parkReconn 4 ∈ (vhost_user_start_client sampleSocket 4
        { cenv := { connect_ret := 0, connect_errno := 0, fcntl_getfl := 2048, fcntl_setfl_ok := true },
          reconn_malloc_ok := true }).trace ∧
      Effect.closeFd 4 ∉ (vhost_user_start_client sampleSocket 4
        { cenv := { connect_ret := 0, connect_errno := 0, fcntl_getfl := 2048, fcntl_setfl_ok := true },
          reconn_malloc_ok := true }).trace) ∧
    (((vhost_user_connect_nonblock 4
        { connect_ret := 0, connect_errno := 0, fcntl_getfl := 2048, fcntl_setfl_ok := true }).ret = -2 ∨
      ((vhost_user_connect_nonblock 4
        { connect_ret := 0, connect_errno := 0, fcntl_getfl := 2048, fcntl_setfl_ok := true }).ret = -1 ∧ sampleSocket.reconnect = false) ∨
      ((vhost_user_connect_nonblock 4
        { connect_ret := 0, connect_errno := 0, fcntl_getfl := 2048, fcntl_setfl_ok := true }).ret = -1 ∧ true = false)) →
      (vhost_user_start_client sampleSocket 4
        { cenv := { connect_ret := 0, connect_errno := 0, fcntl_getfl := 2048, fcntl_setfl_ok := true },
          reconn_malloc_ok := true }).ret = -1 ∧
      Effect.closeFd 4 ∈ (vhost_user_start_client sampleSocket 4
        { cenv := { connect_ret := 0, connect_errno := 0, fcntl_getfl := 2048, fcntl_setfl_ok := true },
          reconn_malloc_ok := true }).trace ∧
      Effect.parkReconn 4 ∉ (vhost_user_start_client sampleSocket 4
        { cenv := { connect_ret := 0, connect_errno := 0, fcntl_getfl := 2048, fcntl_setfl_ok := true },
          reconn_malloc_ok := true }).trace) :=
  start_client_outcomes sampleSocket 4
    { cenv := { connect_ret := 0, connect_errno := 0, fcntl_getfl := 2048, fcntl_setfl_ok := true },
      reconn_malloc_ok := true }

/-- C8 counterexample: for a reconnect entry whose connect completes, the
sweep hands the descriptor to the connection-creation path first and only
then removes the entry from the list, so the removal does not precede the
hand-off as the claim states. -/
theorem reconnect_sweep_order_counterexample :
    (reconnSweep [({ fd := 5 }, 0)]).2 =
      [Effect.addConnection 5, Effect.removeReconn 5, Effect.freeReconn 5] ∧
    ¬ idxOf (reconnSweep [({ fd := 5 }, 0)]).2 (Effect.removeReconn 5) <
        idxOf (reconnSweep [({ fd := 5 }, 0)]).2 (Effect.addConnection 5) := by
  decide

/-- C8 as amended: each sweep of the reconnect thread processes every
pending entry — a fatal connect result closes the entry's descriptor and
then removes and frees the entry; a not-yet-connected result leaves the
entry in place; a completed connect hands the descriptor to the
connection-creation path for the entry's endpoint and then removes the
entry from the list and frees it — and the entries that remain after the
sweep are exactly the not-yet-connected ones, in order. -/
theorem reconnect_sweep_spec (l : List (ReconnEntry × Int)) :
    reconnSweep l =
      ((l.filter fun p => p.2 == -1).map Prod.fst,
       l.bind fun p =>
         if p.2 = -2 then
           [Effect.closeFd p.1.fd, Effect.removeReconn p.1.fd, Effect.freeReconn p.1.fd]
         else if p.2 = -1 then []
         else
           [Effect.addConnection p.1.fd, Effect.removeReconn p.1.fd,
            Effect.freeReconn p.1.fd]) := by
  induction l with
  | nil => rfl
  | cons p rest ih =>
    obtain ⟨e, r⟩ := p
    by_cases h2 : r = -2
    · simp [reconnSweep, h2, ih]
    · by_cases h1 : r = -1
      · simp [reconnSweep, h2, h1, ih]
      · simp [reconnSweep, h2, h1, ih]

end TransAfUnix
